import Mathlib

/-!
Verification of the incremental file-state cache and fuzzy duplicate-detection
engine of the plex_music_management repository.

The Python sources are shallowly embedded as pure Lean functions:

* `cache_manager.py` — `is_file_modified` and `remove_deleted_files`.
  Filesystem observations (existence, `os.stat`, the result of
  `_compute_file_hash`) are passed in as explicit values; the SQLite table is
  a list of rows keyed by path.
* `duplicate_detector.py` — `fuzzy_compare`, `create_audio_signature` and
  `find_duplicates`.  The fuzzywuzzy string-similarity library is an external
  dependency and is passed in as a record of scoring functions; Python floats
  are idealised as rationals.
* `app.py` — the cache-driven scan loop `scan_files_and_group_with_cache`
  and the scan-start route `start_duplicate_scan`.
-/

/-! ## Change Detector (`cache_manager.is_file_modified`) -/

/-- One row of the `file_cache` SQLite table, restricted to the columns that
`is_file_modified` reads.  `content_hash` is `none` when the column is NULL or
the empty string (both are falsy under the `if cached_hash:` test in the source). -/
structure FileCacheEntry where
  last_modified : ℚ
  file_size : ℤ
  content_hash : Option String
deriving DecidableEq

/-- Embedding of `FileCacheManager.is_file_modified` (cache_manager.py lines
154–200).  Filesystem effects are passed as values:

* `exists_on_disk` — the result of `os.path.exists(file_path)`;
* `stat_result` — `some (st_mtime, st_size)`, or `none` when `os.stat`
  raises `OSError` (the `except OSError` branch returns `True`);
* `cache_entry` — the row returned by `get_file_cache_entry`;
* `computed_hash` — the result of `_compute_file_hash(file_path, quick=True)`;
  `none` models the empty-string sentinel that `_compute_file_hash` returns
  when hashing fails (a successful MD5 hex digest is never empty), which is
  falsy under the source guard `if current_hash and current_hash != cached_hash`
  test. -/
def is_file_modified (exists_on_disk : Bool) (stat_result : Option (ℚ × ℤ))
    (cache_entry : Option FileCacheEntry) (use_content_hash deep_check : Bool)
    (computed_hash : Option String) : Bool :=
  if exists_on_disk = false then
    true
  else
    match stat_result with
    | none => true
    | some (current_mtime, current_size) =>
      match cache_entry with
      | none => true
      | some entry =>
        if entry.last_modified ≠ current_mtime ∨ entry.file_size ≠ current_size then
          true
        else if use_content_hash || deep_check then
          match entry.content_hash with
          | none => true
          | some cached_hash =>
            match computed_hash with
            | none => false
            | some current_hash => if current_hash ≠ cached_hash then true else false
        else
          false

/-! ## File State Store reconciliation (`cache_manager.remove_deleted_files`) -/

/-- Embedding of `FileCacheManager.remove_deleted_files` (cache_manager.py
lines 300–324).  The table is a list of rows `(file_path, row data)`; the row
payload is abstract because the SQL only inspects the `file_path` column.
Following the source, the cached paths are collected, the ones absent from
`existing_files` are selected, and exactly those rows are deleted. -/
def remove_deleted_files {α : Type} (file_cache : List (String × α))
    (existing_files : List String) : List (String × α) :=
  let cached_files := file_cache.map Prod.fst
  let files_to_remove := cached_files.filter (fun f => !(existing_files.contains f))
  file_cache.filter (fun row => !(files_to_remove.contains row.1))

/-! ## Fuzzy Comparator (`duplicate_detector.fuzzy_compare`) -/

/-- The ephemeral per-file feature record built by
`AdvancedDuplicateDetector.extract_audio_features` (duplicate_detector.py
lines 39–71).  String fields hold the already-normalized strings; numeric
fields are rationals standing for Python floats/ints. -/
structure FeatureSet where
  filename : String
  title : String
  artist : String
  albumartist : String
  album : String
  duration : ℚ
  file_size : ℚ
  bitrate : ℚ
  track_number : String
  year : String
  file_extension : String
deriving DecidableEq, Inhabited

/-- Interface of the external fuzzywuzzy string-similarity library used by
`fuzzy_compare`: `ratio` is `fuzz.ratio`, `ratio_sub` is the
partial/substring ratio and `token_sort_ratio` is `fuzz.token_sort_ratio`.
Each returns a 0–100 score for the real library; the embedding keeps the
functions abstract. -/
structure Fuzz where
  ratio : String → String → ℚ
  ratio_sub : String → String → ℚ
  token_sort_ratio : String → String → ℚ

/-- The dictionary returned by `fuzzy_compare` (duplicate_detector.py lines
145–159), with the `details` sub-dictionary inlined. -/
structure ScoreBreakdown where
  overall : ℚ
  title : ℚ
  artist : ℚ
  album : ℚ
  filename : ℚ
  duration : ℚ
  size : ℚ
  bitrate : ℚ
  duration_diff : ℚ
  size_diff_mb : ℚ
  bitrate_diff : ℚ
deriving DecidableEq

/-- Round half to even at integer precision, the rounding mode of the Python
built-in `round`. -/
def round_half_even (q : ℚ) : ℤ :=
  let f := Int.floor q
  let r := q - f
  if r < 1 / 2 then f
  else if 1 / 2 < r then f + 1
  else if f % 2 = 0 then f else f + 1

/-- The Python call `round(x, 2)`: round half to even at two decimal places. -/
def py_round2 (q : ℚ) : ℚ := (round_half_even (q * 100) : ℚ) / 100

/-- Title similarity (duplicate_detector.py lines 94–97): the maximum of the
direct ratio, the partial ratio and the token-sort ratio. -/
def title_similarity (fz : Fuzz) (f1 f2 : FeatureSet) : ℚ :=
  max (max (fz.ratio f1.title f2.title) (fz.ratio_sub f1.title f2.title))
    (fz.token_sort_ratio f1.title f2.title)

/-- Artist similarity (duplicate_detector.py lines 99–106): the maximum of
direct and partial ratio, additionally taking the album-artist ratio into the
maximum when both album-artist strings are non-empty (Python truthiness of
the albumartist feature field). -/
def artist_similarity (fz : Fuzz) (f1 f2 : FeatureSet) : ℚ :=
  let base := max (fz.ratio f1.artist f2.artist) (fz.ratio_sub f1.artist f2.artist)
  if f1.albumartist ≠ "" ∧ f2.albumartist ≠ "" then
    max base (fz.ratio f1.albumartist f2.albumartist)
  else base

/-- Duration closeness (duplicate_detector.py lines 111–118) as a function of
the absolute duration difference. -/
def duration_closeness (duration_diff : ℚ) : ℚ :=
  if duration_diff ≤ 3 then 100
  else if duration_diff ≤ 10 then 90 - (duration_diff - 3) * 5
  else max 0 (100 - duration_diff * 2)

/-- File-size closeness (duplicate_detector.py lines 120–125). -/
def size_closeness (s1 s2 : ℚ) : ℚ :=
  if 0 < s1 ∧ 0 < s2 then max 0 (100 - |s1 - s2| / max s1 s2 * 100) else 0

/-- Bitrate closeness (duplicate_detector.py lines 127–132); a neutral 50
when either bitrate is missing (non-positive). -/
def bitrate_closeness (b1 b2 : ℚ) : ℚ :=
  if 0 < b1 ∧ 0 < b2 then max 0 (100 - |b1 - b2| / max b1 b2 * 100) else 50

/-- Embedding of `AdvancedDuplicateDetector.fuzzy_compare`
(duplicate_detector.py lines 89–159). -/
def fuzzy_compare (fz : Fuzz) (f1 f2 : FeatureSet) : ScoreBreakdown :=
  { overall := py_round2
      (title_similarity fz f1 f2 * 0.35 + artist_similarity fz f1 f2 * 0.30 +
        fz.ratio f1.album f2.album * 0.10 + fz.ratio f1.filename f2.filename * 0.10 +
        duration_closeness |f1.duration - f2.duration| * 0.10 +
        size_closeness f1.file_size f2.file_size * 0.03 +
        bitrate_closeness f1.bitrate f2.bitrate * 0.02)
    title := title_similarity fz f1 f2
    artist := artist_similarity fz f1 f2
    album := fz.ratio f1.album f2.album
    filename := fz.ratio f1.filename f2.filename
    duration := duration_closeness |f1.duration - f2.duration|
    size := size_closeness f1.file_size f2.file_size
    bitrate := bitrate_closeness f1.bitrate f2.bitrate
    duration_diff := |f1.duration - f2.duration|
    size_diff_mb := |f1.file_size - f2.file_size| / (1024 * 1024)
    bitrate_diff := |f1.bitrate - f2.bitrate| }

/-! ## Signature Bucketer and Duplicate Grouper (`duplicate_detector.py`) -/

/-- Embedding of `AdvancedDuplicateDetector.create_audio_signature`
(duplicate_detector.py lines 73–87).  The Python expression `int(x // n)` on the
non-negative-or-integral values involved is the floor of the quotient. -/
def create_audio_signature (features : FeatureSet) : String :=
  let duration_bucket : ℤ :=
    if features.duration ≠ 0 then Int.floor (features.duration / 30) * 30 else 0
  let size_bucket : ℤ :=
    if features.file_size ≠ 0 then Int.floor (features.file_size / (1024 * 1024)) else 0
  let artist_part := if features.artist ≠ "" then features.artist.take 10 else ""
  let title_part := if features.title ≠ "" then features.title.take 10 else ""
  (artist_part ++ title_part ++ toString duration_bucket ++ toString size_bucket).replace " " ""

/-- A `(file_path, features)` pair together with its similarity score, the
element type of the `similar_files` list in the source. -/
abbrev ScoredFile := String × FeatureSet × ℚ

/-- Append a value to the bucket of `key`, creating the bucket at the end
when absent — the behaviour of `defaultdict(list)` with Python dicts
preserving key insertion order. -/
def add_to_signature_groups (groups : List (String × List (String × FeatureSet)))
    (key : String) (v : String × FeatureSet) : List (String × List (String × FeatureSet)) :=
  match groups with
  | [] => [(key, [v])]
  | (k, vs) :: rest =>
    if k = key then (k, vs ++ [v]) :: rest
    else (k, vs) :: add_to_signature_groups rest key v

/-- The `signature_groups` table built in `find_duplicates`
(duplicate_detector.py lines 212–216), iterated in key insertion order. -/
def signature_groups (audio_files : List (String × FeatureSet)) :
    List (String × List (String × FeatureSet)) :=
  audio_files.foldl (fun gs fv => add_to_signature_groups gs (create_audio_signature fv.2) fv) []

/-- The inner `for file2 ... in group_files[i+1:]` loop of `find_duplicates`
(duplicate_detector.py lines 231–239): walk the files after the seed, skip
the already-processed ones, and collect every file whose overall similarity
to the features of the seed reaches the threshold, marking it processed. -/
def collect_similar (fz : Fuzz) (threshold : ℚ) (features1 : FeatureSet) :
    List (String × FeatureSet) → List String → List ScoredFile × List String
  | [], processed => ([], processed)
  | (file2, features2) :: rest, processed =>
    if file2 ∈ processed then collect_similar fz threshold features1 rest processed
    else
      let overall := (fuzzy_compare fz features1 features2).overall
      if threshold ≤ overall then
        let r := collect_similar fz threshold features1 rest (file2 :: processed)
        ((file2, features2, overall) :: r.1, r.2)
      else
        collect_similar fz threshold features1 rest processed

/-- The per-member record placed in the `files` list of a duplicate group
(duplicate_detector.py lines 252–265). -/
structure FileInfo where
  path : String
  filename : String
  size : ℚ
  duration : ℚ
  bitrate : ℚ
  title : String
  artist : String
  album : String
  similarity_score : ℚ
  file_extension : String
deriving DecidableEq, Inhabited

/-- Embedding of `os.path.basename` on POSIX paths: the segment after the
last slash. -/
def os_path_basename (p : String) : String := (p.splitOn "/").getLastD ""

/-- Build a `FileInfo` from a scored file, with the empty-string-to-Unknown
defaulting of the source for title/artist/album. -/
def to_file_info (x : ScoredFile) : FileInfo :=
  { path := x.1
    filename := os_path_basename x.1
    size := x.2.1.file_size
    duration := x.2.1.duration
    bitrate := x.2.1.bitrate
    title := if x.2.1.title ≠ "" then x.2.1.title else "Unknown"
    artist := if x.2.1.artist ≠ "" then x.2.1.artist else "Unknown"
    album := if x.2.1.album ≠ "" then x.2.1.album else "Unknown"
    similarity_score := x.2.2
    file_extension := x.2.1.file_extension }

/-- A duplicate group as assembled at duplicate_detector.py lines 246–265. -/
structure DuplicateGroup where
  files : List FileInfo
  best_match : String
  group_id : String
deriving DecidableEq, Inhabited

/-- Insert into a list that is sorted by similarity score descending, placing
the new element before the first element whose score does not exceed it. -/
def insert_desc (x : ScoredFile) : List ScoredFile → List ScoredFile
  | [] => [x]
  | y :: ys => if y.2.2 ≤ x.2.2 then x :: y :: ys else y :: insert_desc x ys

/-- Model of `similar_files.sort(key=lambda x: x[2], reverse=True)`: the Python
sort is stable, so the result is the unique reordering that is
score-descending with equal-score elements kept in original order; this
right-to-left insertion sort computes exactly that reordering. -/
def sort_by_score_desc : List ScoredFile → List ScoredFile
  | [] => []
  | x :: xs => insert_desc x (sort_by_score_desc xs)

/-- Assemble the emitted group (duplicate_detector.py lines 246–265) from the
sorted member list.  `digest` stands for the external
`hashlib.md5(·.encode()).hexdigest()`; the group id is its first 8
characters on the best-match path concatenated with the member count. -/
def make_group (digest : String → String) (sorted_files : List ScoredFile) : DuplicateGroup :=
  let best := (sorted_files.headD default).1
  { files := sorted_files.map to_file_info
    best_match := best
    group_id := (digest (best ++ toString sorted_files.length)).take 8 }

/-- The `for i, (file1, features1) in enumerate(group_files)` loop of
`find_duplicates` (duplicate_detector.py lines 225–268) over one signature
bucket, threading the global `processed` set and emitting groups in seed
order.  A seed already processed is skipped; a candidate group is emitted
only when it has more than one member, and only then is the seed marked
processed. -/
def process_group_files (fz : Fuzz) (digest : String → String) (threshold : ℚ) :
    List (String × FeatureSet) → List String → List DuplicateGroup × List String
  | [], processed => ([], processed)
  | (file1, features1) :: rest, processed =>
    if file1 ∈ processed then process_group_files fz digest threshold rest processed
    else
      let c := collect_similar fz threshold features1 rest processed
      let similar_files := (file1, features1, (100 : ℚ)) :: c.1
      if 1 < similar_files.length then
        let sorted_files := sort_by_score_desc similar_files
        let r := process_group_files fz digest threshold rest (file1 :: c.2)
        (make_group digest sorted_files :: r.1, r.2)
      else
        process_group_files fz digest threshold rest c.2

/-- One iteration of the outer loop over `signature_groups.values()` in
`find_duplicates` (duplicate_detector.py lines 221–268): skip buckets of
fewer than two files, otherwise process the bucket and append the emitted
groups, threading the global `processed` set. -/
def find_duplicates_step (fz : Fuzz) (digest : String → String) (threshold : ℚ)
    (acc : List DuplicateGroup × List String) (kv : String × List (String × FeatureSet)) :
    List DuplicateGroup × List String :=
  if kv.2.length < 2 then acc
  else
    let r := process_group_files fz digest threshold kv.2 acc.2
    (acc.1 ++ r.1, r.2)

/-- Embedding of `AdvancedDuplicateDetector.find_duplicates`
(duplicate_detector.py lines 204–271).  The input list holds the per-file
feature sets (feature extraction reads the filesystem and is performed by
the caller of this pure core); buckets of fewer than two files are skipped,
and `processed` persists across buckets. -/
def find_duplicates (fz : Fuzz) (digest : String → String) (threshold : ℚ)
    (audio_files : List (String × FeatureSet)) : List DuplicateGroup :=
  let groups := signature_groups audio_files
  (groups.foldl (find_duplicates_step fz digest threshold)
    (([], []) : List DuplicateGroup × List String)).1

/-- The list of member paths of a duplicate group. -/
def group_paths (g : DuplicateGroup) : List String := g.files.map (fun fi => fi.path)

/-- Two duplicate groups have no member path in common. -/
def paths_disjoint (g1 g2 : DuplicateGroup) : Prop :=
  ∀ p, p ∈ group_paths g1 → p ∉ group_paths g2

/-- The shape every emitted duplicate group has: it was built from a seed
file carried at score 100 followed by a non-empty list of matches whose
scores are overall `fuzzy_compare` results against the seed features, the
whole list sorted by score descending. -/
def emitted_shape (fz : Fuzz) (digest : String → String) (g : DuplicateGroup) : Prop :=
  ∃ file1 features1 ms,
    g = make_group digest (sort_by_score_desc ((file1, features1, (100 : ℚ)) :: ms)) ∧
    ms ≠ [] ∧ ∀ m ∈ ms, m.2.2 = (fuzzy_compare fz features1 m.2.1).overall

/-! ## Batch scan loop (`app.scan_files_and_group_with_cache`) -/

/-- One pass of the per-file loop of `scan_files_and_group_with_cache`
(app.py lines 113–156): append the file to its basename group, creating the
group at the end on first sight (Python dict insertion order). -/
def add_file_to_groups {μ : Type} (gs : List (String × List String × Option μ))
    (key p : String) : List (String × List String × Option μ) :=
  match gs with
  | [] => [(key, [p], none)]
  | (k, fs, m) :: rest =>
    if k = key then (k, fs ++ [p], m) :: rest
    else (k, fs, m) :: add_file_to_groups rest key p

/-- Set the metadata of a group when it is still unset, the
empty-metadata guard of app.py lines 148–156 (`none` models the empty
dict). -/
def set_group_metadata {μ : Type} (gs : List (String × List String × Option μ))
    (key : String) (d : μ) : List (String × List String × Option μ) :=
  match gs with
  | [] => []
  | (k, fs, m) :: rest =>
    if k = key then
      (k, fs, match m with | none => some d | some x => some x) :: rest
    else (k, fs, m) :: set_group_metadata rest key d

/-- Ascending insertion by group key, modelling `sorted(file_groups.items())`
(keys are unique, so ties cannot occur). -/
def insert_by_key {μ : Type} (x : String × List String × Option μ) :
    List (String × List String × Option μ) → List (String × List String × Option μ)
  | [] => [x]
  | y :: ys => if x.1 < y.1 then x :: y :: ys else y :: insert_by_key x ys

/-- Sort the group list by key, modelling `dict(sorted(file_groups.items()))`
at app.py line 159. -/
def sort_groups_by_key {μ : Type} :
    List (String × List String × Option μ) → List (String × List String × Option μ)
  | [] => []
  | x :: xs => insert_by_key x (sort_groups_by_key xs)

/-- The per-file loop of `scan_files_and_group_with_cache` (app.py lines
113–156).  `needs_scan p` stands for
`force_rescan or cache_manager.is_file_modified(p)`; `extract` for
`tag_reader.get_comprehensive_file_data`; `upsert` for
`cache_manager.update_file_cache`, which re-raises storage errors
(cache_manager.py line 236), modelled as `Except.error`.  The loop body has
no exception handler, so an error result aborts the remaining traversal. -/
def scan_loop {μ ε : Type} (group_key_of : String → String) (needs_scan : String → Bool)
    (extract : String → μ) (upsert : String → μ → Except ε Unit)
    (cached_entry : String → Option μ) :
    List String → List (String × List String × Option μ) →
    Except ε (List (String × List String × Option μ))
  | [], gs => Except.ok gs
  | p :: rest, gs =>
    let key := group_key_of p
    let gs1 := add_file_to_groups gs key p
    if needs_scan p then
      match upsert p (extract p) with
      | Except.error e => Except.error e
      | Except.ok _ =>
        scan_loop group_key_of needs_scan extract upsert cached_entry rest
          (set_group_metadata gs1 key (extract p))
    else
      match cached_entry p with
      | some d =>
        scan_loop group_key_of needs_scan extract upsert cached_entry rest
          (set_group_metadata gs1 key d)
      | none => scan_loop group_key_of needs_scan extract upsert cached_entry rest gs1

/-- Embedding of `scan_files_and_group_with_cache` (app.py lines 82–159)
restricted to the cache-driven grouping loop over the discovered audio
files: process each file in order and finally sort the groups by key. -/
def scan_files_and_group_with_cache {μ ε : Type} (group_key_of : String → String)
    (needs_scan : String → Bool) (extract : String → μ)
    (upsert : String → μ → Except ε Unit) (cached_entry : String → Option μ)
    (files : List String) : Except ε (List (String × List String × Option μ)) :=
  match scan_loop group_key_of needs_scan extract upsert cached_entry files [] with
  | Except.error e => Except.error e
  | Except.ok gs => Except.ok (sort_groups_by_key gs)

/-! ## Scan-start route (`app.start_duplicate_scan`) -/

/-- The global `scan_progress` dictionary of app.py line 53. -/
structure ScanProgress where
  scanning : Bool
  progress : ℕ
  total : ℕ
  current_file : String
  results : Option (List DuplicateGroup)
deriving DecidableEq

/-- The JSON responses `start_duplicate_scan` can produce (app.py lines
431–458), ignoring the internal-exception branch. -/
inductive ScanStartResult where
  | already_in_progress
  | directory_missing
  | started
deriving DecidableEq

/-- Embedding of the `/scan-duplicates` POST handler `start_duplicate_scan`
(app.py lines 431–458).  Returns the response, the new `scan_progress`
state, and whether a background scan thread was started. -/
def start_duplicate_scan (st : ScanProgress) (directory_exists : Bool) :
    ScanStartResult × ScanProgress × Bool :=
  if st.scanning then (ScanStartResult.already_in_progress, st, false)
  else if directory_exists = false then (ScanStartResult.directory_missing, st, false)
  else
    (ScanStartResult.started,
      { scanning := true, progress := 0, total := 0, current_file := "", results := none },
      true)

/-! ## Concrete instances for witnesses and counterexamples -/

/-- A string scorer giving 100 on identical strings and 0 otherwise.  It
agrees with the fuzzywuzzy functions `ratio`, substring ratio and
token-sort ratio on
the self-comparisons of non-empty strings (each scores an exactly equal
non-empty pair at 100), which is the only part of the library behaviour
the concrete instances below exercise. -/
def exact_match_score (s1 s2 : String) : ℚ := if s1 = s2 then 100 else 0

/-- The fuzzywuzzy interface instantiated with `exact_match_score`. -/
def exactMatchLib : Fuzz :=
  { ratio := exact_match_score
    ratio_sub := exact_match_score
    token_sort_ratio := exact_match_score }

/-- A feature set with non-empty identical-looking strings but zero file
size and zero bitrate. -/
def zeroSizeFeatures : FeatureSet :=
  { filename := "x", title := "x", artist := "x", albumartist := "", album := "x"
    duration := 180, file_size := 0, bitrate := 0
    track_number := "1", year := "2020", file_extension := ".mp3" }

/-- A feature set with non-empty strings, positive file size and positive
bitrate. -/
def posFeatures : FeatureSet :=
  { filename := "song", title := "song", artist := "art", albumartist := "", album := "alb"
    duration := 180, file_size := 1000000, bitrate := 320
    track_number := "1", year := "2020", file_extension := ".mp3" }

/-- A stand-in for the MD5 hex-digest function in concrete evaluations. -/
def idDigest : String → String := fun s => s

/-- Two distinct paths carrying identical features: they share a signature
bucket and score 100 against each other, so they form one duplicate group. -/
def demoFiles : List (String × FeatureSet) :=
  [("a/song.mp3", posFeatures), ("b/song.mp3", posFeatures)]

/-! ## Helper lemmas -/

theorem mem_insert_desc {x y : ScoredFile} {l : List ScoredFile} :
    y ∈ insert_desc x l ↔ y = x ∨ y ∈ l := by
  induction l with
  | nil => simp [insert_desc]
  | cons z zs ih =>
    by_cases h : z.2.2 ≤ x.2.2
    · simp [insert_desc, h]
    · simp [insert_desc, h, ih]
      tauto

theorem mem_sort_by_score_desc {y : ScoredFile} {l : List ScoredFile} :
    y ∈ sort_by_score_desc l ↔ y ∈ l := by
  induction l with
  | nil => simp [sort_by_score_desc]
  | cons z zs ih => simp [sort_by_score_desc, mem_insert_desc, ih]

theorem length_insert_desc (x : ScoredFile) (l : List ScoredFile) :
    (insert_desc x l).length = l.length + 1 := by
  induction l with
  | nil => simp [insert_desc]
  | cons z zs ih =>
    by_cases h : z.2.2 ≤ x.2.2
    · simp [insert_desc, h]
    · simp [insert_desc, h, ih]

theorem length_sort_by_score_desc (l : List ScoredFile) :
    (sort_by_score_desc l).length = l.length := by
  induction l with
  | nil => rfl
  | cons z zs ih => simp [sort_by_score_desc, length_insert_desc, ih]

theorem insert_desc_pairwise {x : ScoredFile} {l : List ScoredFile}
    (h : l.Pairwise (fun a b => b.2.2 ≤ a.2.2)) :
    (insert_desc x l).Pairwise (fun a b => b.2.2 ≤ a.2.2) := by
  induction l with
  | nil => simp [insert_desc]
  | cons z zs ih =>
    rcases List.pairwise_cons.mp h with ⟨hz, hzs⟩
    by_cases hc : z.2.2 ≤ x.2.2
    · simp only [insert_desc, if_pos hc]
      refine List.pairwise_cons.mpr ⟨?_, h⟩
      intro b hb
      rcases List.mem_cons.mp hb with hb | hb
      · subst hb; exact hc
      · exact le_trans (hz b hb) hc
    · simp only [insert_desc, if_neg hc]
      refine List.pairwise_cons.mpr ⟨?_, ih hzs⟩
      intro b hb
      rcases mem_insert_desc.mp hb with hb | hb
      · subst hb; exact le_of_lt (lt_of_not_le hc)
      · exact hz b hb

theorem sort_by_score_desc_pairwise (l : List ScoredFile) :
    (sort_by_score_desc l).Pairwise (fun a b => b.2.2 ≤ a.2.2) := by
  induction l with
  | nil => simp [sort_by_score_desc]
  | cons z zs ih => exact insert_desc_pairwise ih

theorem insert_desc_of_max {x : ScoredFile} {l : List ScoredFile}
    (h : ∀ y ∈ l, y.2.2 ≤ x.2.2) : insert_desc x l = x :: l := by
  cases l with
  | nil => rfl
  | cons z zs => simp [insert_desc, h z (by simp)]

theorem collect_similar_processed_mono (fz : Fuzz) (threshold : ℚ) (features1 : FeatureSet)
    (l : List (String × FeatureSet)) (processed : List String) :
    ∀ p ∈ processed, p ∈ (collect_similar fz threshold features1 l processed).2 := by
  induction l generalizing processed with
  | nil => intro p hp; simpa [collect_similar] using hp
  | cons hd tl ih =>
    obtain ⟨file2, features2⟩ := hd
    intro p hp
    by_cases hmem : file2 ∈ processed
    · simpa [collect_similar, hmem] using ih processed p hp
    · by_cases hov : threshold ≤ (fuzzy_compare fz features1 features2).overall
      · simpa [collect_similar, hmem, hov] using ih (file2 :: processed) p (by simp [hp])
      · simpa [collect_similar, hmem, hov] using ih processed p hp

theorem collect_similar_matches (fz : Fuzz) (threshold : ℚ) (features1 : FeatureSet)
    (l : List (String × FeatureSet)) (processed : List String) :
    ∀ m ∈ (collect_similar fz threshold features1 l processed).1,
      m.1 ∉ processed ∧ m.1 ∈ (collect_similar fz threshold features1 l processed).2 ∧
        m.2.2 = (fuzzy_compare fz features1 m.2.1).overall := by
  induction l generalizing processed with
  | nil => intro m hm; simp [collect_similar] at hm
  | cons hd tl ih =>
    obtain ⟨file2, features2⟩ := hd
    intro m hm
    by_cases hmem : file2 ∈ processed
    · simp only [collect_similar, if_pos hmem] at hm ⊢
      exact ih processed m hm
    · by_cases hov : threshold ≤ (fuzzy_compare fz features1 features2).overall
      · simp only [collect_similar, if_neg hmem, if_pos hov] at hm ⊢
        rcases List.mem_cons.mp hm with hm | hm
        · subst hm
          refine ⟨hmem, ?_, rfl⟩
          exact collect_similar_processed_mono fz threshold features1 tl (file2 :: processed)
            file2 (by simp)
        · rcases ih (file2 :: processed) m hm with ⟨h1, h2, h3⟩
          exact ⟨fun hc => h1 (by simp [hc]), h2, h3⟩
      · simp only [collect_similar, if_neg hmem, if_neg hov] at hm ⊢
        exact ih processed m hm

theorem group_paths_make_group (digest : String → String) (l : List ScoredFile) :
    group_paths (make_group digest l) = l.map (fun x => x.1) := by
  simp only [group_paths, make_group, List.map_map]
  rfl

theorem mem_group_paths_make_sorted {p : String} (digest : String → String)
    (similar : List ScoredFile) :
    p ∈ group_paths (make_group digest (sort_by_score_desc similar)) ↔
      ∃ x ∈ similar, x.1 = p := by
  rw [group_paths_make_group]
  simp only [List.mem_map]
  constructor
  · rintro ⟨x, hx, rfl⟩
    exact ⟨x, mem_sort_by_score_desc.mp hx, rfl⟩
  · rintro ⟨x, hx, rfl⟩
    exact ⟨x, mem_sort_by_score_desc.mpr hx, rfl⟩

theorem process_group_files_processed_mono (fz : Fuzz) (digest : String → String)
    (threshold : ℚ) (l : List (String × FeatureSet)) (processed : List String) :
    ∀ p ∈ processed, p ∈ (process_group_files fz digest threshold l processed).2 := by
  induction l generalizing processed with
  | nil => intro p hp; simpa [process_group_files] using hp
  | cons hd tl ih =>
    obtain ⟨file1, features1⟩ := hd
    intro p hp
    by_cases hmem : file1 ∈ processed
    · simpa [process_group_files, hmem] using ih processed p hp
    · have hcp := collect_similar_processed_mono fz threshold features1 tl processed p hp
      by_cases hlen : 1 < ((file1, features1, (100 : ℚ)) ::
          (collect_similar fz threshold features1 tl processed).1).length
      · simp only [process_group_files, if_neg hmem, if_pos hlen]
        exact ih (file1 :: (collect_similar fz threshold features1 tl processed).2) p
          (by simp [hcp])
      · simp only [process_group_files, if_neg hmem, if_neg hlen]
        exact ih (collect_similar fz threshold features1 tl processed).2 p hcp

theorem process_group_files_fresh (fz : Fuzz) (digest : String → String) (threshold : ℚ)
    (l : List (String × FeatureSet)) (processed : List String) :
    ∀ g ∈ (process_group_files fz digest threshold l processed).1, ∀ p ∈ group_paths g,
      p ∉ processed ∧ p ∈ (process_group_files fz digest threshold l processed).2 := by
  induction l generalizing processed with
  | nil => intro g hg; simp [process_group_files] at hg
  | cons hd tl ih =>
    obtain ⟨file1, features1⟩ := hd
    intro g hg p hp
    by_cases hmem : file1 ∈ processed
    · simp only [process_group_files, if_pos hmem] at hg ⊢
      exact ih processed g hg p hp
    · by_cases hlen : 1 < ((file1, features1, (100 : ℚ)) ::
          (collect_similar fz threshold features1 tl processed).1).length
      · simp only [process_group_files, if_neg hmem, if_pos hlen] at hg ⊢
        rcases List.mem_cons.mp hg with hg | hg
        · subst hg
          rcases (mem_group_paths_make_sorted digest _).mp hp with ⟨x, hx, rfl⟩
          rcases List.mem_cons.mp hx with hx | hx
          · subst hx
            refine ⟨hmem, ?_⟩
            exact process_group_files_processed_mono fz digest threshold tl _ file1 (by simp)
          · rcases collect_similar_matches fz threshold features1 tl processed x hx with
              ⟨h1, h2, _⟩
            refine ⟨h1, ?_⟩
            exact process_group_files_processed_mono fz digest threshold tl _ x.1
              (by simp [h2])
        · rcases ih (file1 :: (collect_similar fz threshold features1 tl processed).2) g hg p hp
            with ⟨h1, h2⟩
          refine ⟨fun hc => h1 ?_, h2⟩
          simp only [List.mem_cons]
          exact Or.inr (collect_similar_processed_mono fz threshold features1 tl processed p hc)
      · simp only [process_group_files, if_neg hmem, if_neg hlen] at hg ⊢
        rcases ih (collect_similar fz threshold features1 tl processed).2 g hg p hp with ⟨h1, h2⟩
        exact ⟨fun hc => h1 (collect_similar_processed_mono fz threshold features1 tl processed
          p hc), h2⟩

theorem process_group_files_shape (fz : Fuzz) (digest : String → String) (threshold : ℚ)
    (l : List (String × FeatureSet)) (processed : List String) :
    ∀ g ∈ (process_group_files fz digest threshold l processed).1,
      ∃ file1 features1 ms,
        g = make_group digest (sort_by_score_desc ((file1, features1, (100 : ℚ)) :: ms)) ∧
        ms ≠ [] ∧ ∀ m ∈ ms, m.2.2 = (fuzzy_compare fz features1 m.2.1).overall := by
  induction l generalizing processed with
  | nil => intro g hg; simp [process_group_files] at hg
  | cons hd tl ih =>
    obtain ⟨file1, features1⟩ := hd
    intro g hg
    by_cases hmem : file1 ∈ processed
    · simp only [process_group_files, if_pos hmem] at hg
      exact ih processed g hg
    · by_cases hlen : 1 < ((file1, features1, (100 : ℚ)) ::
          (collect_similar fz threshold features1 tl processed).1).length
      · simp only [process_group_files, if_neg hmem, if_pos hlen] at hg
        rcases List.mem_cons.mp hg with hg | hg
        · subst hg
          refine ⟨file1, features1, (collect_similar fz threshold features1 tl processed).1,
            rfl, ?_, ?_⟩
          · intro hc
            rw [hc] at hlen
            simp at hlen
          · intro m hm
            exact (collect_similar_matches fz threshold features1 tl processed m hm).2.2
        · exact ih _ g hg
      · simp only [process_group_files, if_neg hmem, if_neg hlen] at hg
        exact ih _ g hg

theorem process_group_files_emitted_shape (fz : Fuzz) (digest : String → String)
    (threshold : ℚ) (l : List (String × FeatureSet)) (processed : List String) :
    ∀ g ∈ (process_group_files fz digest threshold l processed).1,
      emitted_shape fz digest g := by
  intro g hg
  rcases process_group_files_shape fz digest threshold l processed g hg with
    ⟨f1, ft1, ms, h1, h2, h3⟩
  exact ⟨f1, ft1, ms, h1, h2, h3⟩

theorem process_group_files_pairwise (fz : Fuzz) (digest : String → String) (threshold : ℚ)
    (l : List (String × FeatureSet)) (processed : List String) :
    (process_group_files fz digest threshold l processed).1.Pairwise paths_disjoint := by
  induction l generalizing processed with
  | nil => simp [process_group_files]
  | cons hd tl ih =>
    obtain ⟨file1, features1⟩ := hd
    by_cases hmem : file1 ∈ processed
    · simp only [process_group_files, if_pos hmem]
      exact ih processed
    · by_cases hlen : 1 < ((file1, features1, (100 : ℚ)) ::
          (collect_similar fz threshold features1 tl processed).1).length
      · simp only [process_group_files, if_neg hmem, if_pos hlen]
        refine List.pairwise_cons.mpr ⟨?_, ih _⟩
        intro g' hg' p hp hp'
        have hfresh := process_group_files_fresh fz digest threshold tl
          (file1 :: (collect_similar fz threshold features1 tl processed).2) g' hg' p hp'
        apply hfresh.1
        rcases (mem_group_paths_make_sorted digest _).mp hp with ⟨x, hx, rfl⟩
        rcases List.mem_cons.mp hx with hx | hx
        · subst hx; simp
        · rcases collect_similar_matches fz threshold features1 tl processed x hx with
            ⟨_, h2, _⟩
          simp [h2]
      · simp only [process_group_files, if_neg hmem, if_neg hlen]
        exact ih _

theorem duration_closeness_le_100 (d : ℚ) : duration_closeness d ≤ 100 := by
  unfold duration_closeness
  split_ifs with h1 h2
  · exact le_refl _
  · push_neg at h1; linarith
  · exact max_le (by norm_num) (by push_neg at h2; linarith)

theorem size_closeness_le_100 (s1 s2 : ℚ) : size_closeness s1 s2 ≤ 100 := by
  unfold size_closeness
  split_ifs with h
  · refine max_le (by norm_num) ?_
    have hpos : (0 : ℚ) < max s1 s2 := lt_max_of_lt_left h.1
    have : 0 ≤ |s1 - s2| / max s1 s2 * 100 := by positivity
    linarith
  · norm_num

theorem bitrate_closeness_le_100 (b1 b2 : ℚ) : bitrate_closeness b1 b2 ≤ 100 := by
  unfold bitrate_closeness
  split_ifs with h
  · refine max_le (by norm_num) ?_
    have hpos : (0 : ℚ) < max b1 b2 := lt_max_of_lt_left h.1
    have : 0 ≤ |b1 - b2| / max b1 b2 * 100 := by positivity
    linarith
  · norm_num

theorem round_half_even_le (q : ℚ) (n : ℤ) (h : q ≤ n) : round_half_even q ≤ n := by
  have hfl : Int.floor q ≤ n := by
    have := Int.floor_le_floor h
    rwa [Int.floor_intCast] at this
  simp only [round_half_even]
  split_ifs with h1 h2 h3
  · exact hfl
  · have hlt : (Int.floor q : ℚ) < n := by
      have hq : (Int.floor q : ℚ) < q - 1 / 2 + 1 / 2 := by linarith
      have : (Int.floor q : ℚ) ≤ q := Int.floor_le q
      linarith
    have : Int.floor q < n := by exact_mod_cast hlt
    omega
  · exact hfl
  · have heq : q - Int.floor q = 1 / 2 := le_antisymm (not_lt.mp h2) (not_lt.mp h1)
    have hlt : (Int.floor q : ℚ) < n := by linarith
    have : Int.floor q < n := by exact_mod_cast hlt
    omega

theorem py_round2_le_100 (q : ℚ) (h : q ≤ 100) : py_round2 q ≤ 100 := by
  unfold py_round2
  have h1 : q * 100 ≤ ((10000 : ℤ) : ℚ) := by push_cast; linarith
  have h2 := round_half_even_le (q * 100) 10000 h1
  rw [div_le_iff₀ (by norm_num : (0 : ℚ) < 100)]
  calc ((round_half_even (q * 100) : ℤ) : ℚ) ≤ ((10000 : ℤ) : ℚ) := by exact_mod_cast h2
    _ = 100 * 100 := by norm_num

theorem fuzzy_compare_overall_le_100 (fz : Fuzz)
    (hr : ∀ s t, fz.ratio s t ≤ 100) (hs : ∀ s t, fz.ratio_sub s t ≤ 100)
    (htk : ∀ s t, fz.token_sort_ratio s t ≤ 100) (f1 f2 : FeatureSet) :
    (fuzzy_compare fz f1 f2).overall ≤ 100 := by
  have ht : title_similarity fz f1 f2 ≤ 100 :=
    max_le (max_le (hr _ _) (hs _ _)) (htk _ _)
  have ha : artist_similarity fz f1 f2 ≤ 100 := by
    unfold artist_similarity
    split
    · exact max_le (max_le (hr _ _) (hs _ _)) (hr _ _)
    · exact max_le (hr _ _) (hs _ _)
  have hal := hr f1.album f2.album
  have hfn := hr f1.filename f2.filename
  have hd := duration_closeness_le_100 |f1.duration - f2.duration|
  have hsz := size_closeness_le_100 f1.file_size f2.file_size
  have hbr := bitrate_closeness_le_100 f1.bitrate f2.bitrate
  apply py_round2_le_100
  nlinarith [ht, ha, hal, hfn, hd, hsz, hbr]

theorem find_duplicates_fold_inv (fz : Fuzz) (digest : String → String) (threshold : ℚ)
    (bs : List (String × List (String × FeatureSet))) :
    ∀ acc : List DuplicateGroup × List String,
      acc.1.Pairwise paths_disjoint →
      (∀ g ∈ acc.1, ∀ p ∈ group_paths g, p ∈ acc.2) →
      (∀ g ∈ acc.1, emitted_shape fz digest g) →
      ((bs.foldl (find_duplicates_step fz digest threshold) acc).1.Pairwise paths_disjoint ∧
        (∀ g ∈ (bs.foldl (find_duplicates_step fz digest threshold) acc).1,
          ∀ p ∈ group_paths g,
            p ∈ (bs.foldl (find_duplicates_step fz digest threshold) acc).2) ∧
        (∀ g ∈ (bs.foldl (find_duplicates_step fz digest threshold) acc).1,
          emitted_shape fz digest g)) := by
  induction bs with
  | nil => intro acc h1 h2 h3; exact ⟨h1, h2, h3⟩
  | cons b bs ih =>
    intro acc h1 h2 h3
    rw [List.foldl_cons]
    have hstep :
        (find_duplicates_step fz digest threshold acc b).1.Pairwise paths_disjoint ∧
        (∀ g ∈ (find_duplicates_step fz digest threshold acc b).1,
          ∀ p ∈ group_paths g, p ∈ (find_duplicates_step fz digest threshold acc b).2) ∧
        (∀ g ∈ (find_duplicates_step fz digest threshold acc b).1,
          emitted_shape fz digest g) := by
      by_cases hb : b.2.length < 2
      · simp only [find_duplicates_step, if_pos hb]
        exact ⟨h1, h2, h3⟩
      · simp only [find_duplicates_step, if_neg hb]
        refine ⟨?_, ?_, ?_⟩
        · apply List.pairwise_append.mpr
          refine ⟨h1, process_group_files_pairwise fz digest threshold b.2 acc.2, ?_⟩
          intro g hg g' hg' p hp hp'
          exact (process_group_files_fresh fz digest threshold b.2 acc.2 g' hg' p hp').1
            (h2 g hg p hp)
        · intro g hg p hp
          rcases List.mem_append.mp hg with hg | hg
          · exact process_group_files_processed_mono fz digest threshold b.2 acc.2 p
              (h2 g hg p hp)
          · exact (process_group_files_fresh fz digest threshold b.2 acc.2 g hg p hp).2
        · intro g hg
          rcases List.mem_append.mp hg with hg | hg
          · exact h3 g hg
          · exact process_group_files_emitted_shape fz digest threshold b.2 acc.2 g hg
    exact ih _ hstep.1 hstep.2.1 hstep.2.2

theorem make_group_best_match_mem (digest : String → String) (l : List ScoredFile)
    (h : l ≠ []) :
    (make_group digest l).best_match ∈ group_paths (make_group digest l) := by
  rcases l with _ | ⟨x, xs⟩
  · exact absurd rfl h
  · rw [group_paths_make_group]
    simp [make_group]

/-! ## Claim theorems -/

/-- C1: for every path, `isStale` (the embedding `is_file_modified`, with the
stat call succeeding) returns true exactly when the file does not exist, or
there is no cache entry, or the current size or modification time differs
from the stored entry, or — when content-fingerprint checking is enabled or a
deep check is requested — the entry stores no fingerprint, or the fingerprint
was recomputed successfully and differs from the stored one; otherwise it
returns false. -/
theorem is_file_modified_ordered_checks (ex : Bool) (m : ℚ) (s : ℤ)
    (entry? : Option FileCacheEntry) (uch dc : Bool) (comp : Option String) :
    is_file_modified ex (some (m, s)) entry? uch dc comp = true ↔
      (ex = false ∨ entry? = none ∨
        ∃ e, entry? = some e ∧
          (e.last_modified ≠ m ∨ e.file_size ≠ s ∨
            ((uch || dc) = true ∧
              (e.content_hash = none ∨
                ∃ cached current, e.content_hash = some cached ∧ comp = some current ∧
                  current ≠ cached)))) := by
  cases ex with
  | false => simp [is_file_modified]
  | true =>
    rcases entry? with _ | ⟨lm, fs, ch⟩
    · simp [is_file_modified]
    · by_cases h1 : lm = m
      · by_cases h2 : fs = s
        · subst h1; subst h2
          rcases ch with _ | c
          · cases h3 : uch || dc <;> simp [is_file_modified, h3]
          · rcases comp with _ | cur
            · cases h3 : uch || dc <;> simp [is_file_modified, h3]
            · by_cases h4 : cur = c
              · cases h3 : uch || dc <;> simp [is_file_modified, h3, h4]
              · cases h3 : uch || dc <;> simp [is_file_modified, h3, h4]
        · simp [is_file_modified, h2]
      · simp [is_file_modified, h1]

/-- C2: `reconcile` (the embedding `remove_deleted_files`) keeps exactly the
stored rows whose path is in the existing-file list, unchanged and in order,
and a row survives if and only if it was stored and its path is among the
existing files. -/
theorem remove_deleted_files_reconciles {α : Type} (cache : List (String × α))
    (existing : List String) :
    remove_deleted_files cache existing = cache.filter (fun row => existing.contains row.1) ∧
    ∀ row : String × α, row ∈ remove_deleted_files cache existing ↔
      (row ∈ cache ∧ row.1 ∈ existing) := by
  have hmain : remove_deleted_files cache existing =
      cache.filter (fun row => existing.contains row.1) := by
    unfold remove_deleted_files
    apply List.filter_congr
    intro row hrow
    by_cases he : row.1 ∈ existing
    · simp [List.mem_filter, he]
    · simp [List.mem_filter, List.mem_map, he]
      exact ⟨row.2, by simpa using hrow⟩
  refine ⟨hmain, fun row => ?_⟩
  rw [hmain]
  simp [List.mem_filter]

/-- C3: for every pair of feature sets, the overall score of the comparator
equals the weighted sum 0.35 title + 0.30 artist + 0.10 album +
0.10 filename + 0.10 duration + 0.03 size + 0.02 bitrate of the per-factor
scores it reports, rounded to two decimal places. -/
theorem fuzzy_compare_overall_weighted (fz : Fuzz) (f1 f2 : FeatureSet) :
    (fuzzy_compare fz f1 f2).overall =
      py_round2 (0.35 * (fuzzy_compare fz f1 f2).title + 0.30 * (fuzzy_compare fz f1 f2).artist +
        0.10 * (fuzzy_compare fz f1 f2).album + 0.10 * (fuzzy_compare fz f1 f2).filename +
        0.10 * (fuzzy_compare fz f1 f2).duration + 0.03 * (fuzzy_compare fz f1 f2).size +
        0.02 * (fuzzy_compare fz f1 f2).bitrate) := by
  simp only [fuzzy_compare]
  congr 1
  ring

/-- C4: the groups emitted by `find_duplicates` are pairwise disjoint sets of
paths — a file matched into an earlier group is never a member of a later
one — and the designated best match of every group is one of its own
members, so it also cannot belong to any other group. -/
theorem find_duplicates_disjoint_groups (fz : Fuzz) (digest : String → String)
    (threshold : ℚ) (audio_files : List (String × FeatureSet)) :
    (find_duplicates fz digest threshold audio_files).Pairwise paths_disjoint ∧
    ∀ g ∈ find_duplicates fz digest threshold audio_files,
      g.best_match ∈ group_paths g := by
  have h := find_duplicates_fold_inv fz digest threshold (signature_groups audio_files)
    ([], []) (by simp) (by simp) (by simp)
  refine ⟨h.1, ?_⟩
  intro g hg
  rcases h.2.2 g hg with ⟨f1, ft1, ms, rfl, hms, _⟩
  apply make_group_best_match_mem
  have hlen : (sort_by_score_desc ((f1, ft1, (100 : ℚ)) :: ms)).length = ms.length + 1 := by
    rw [length_sort_by_score_desc]; simp
  intro hc
  rw [hc] at hlen
  simp at hlen

/-- C5: when the similarity library scores are bounded by 100 (as fuzzywuzzy
scores are), every group emitted by `find_duplicates` has at least two
members, its member list is sorted by similarity score descending, its head
is the seed file carried at similarity score 100 whose path is the
designated best match, and its group identifier is the 8-character prefix of
the digest of the best-match path concatenated with the group size. -/
theorem find_duplicates_emitted_group_form (fz : Fuzz) (digest : String → String)
    (threshold : ℚ) (audio_files : List (String × FeatureSet))
    (hr : ∀ s t, fz.ratio s t ≤ 100) (hs : ∀ s t, fz.ratio_sub s t ≤ 100)
    (htk : ∀ s t, fz.token_sort_ratio s t ≤ 100) :
    ∀ g ∈ find_duplicates fz digest threshold audio_files,
      2 ≤ g.files.length ∧
      g.files.Pairwise (fun a b => b.similarity_score ≤ a.similarity_score) ∧
      (∃ fi, g.files.head? = some fi ∧ fi.similarity_score = 100 ∧ g.best_match = fi.path) ∧
      g.group_id = (digest (g.best_match ++ toString g.files.length)).take 8 := by
  intro g hg
  have h := find_duplicates_fold_inv fz digest threshold (signature_groups audio_files)
    ([], []) (by simp) (by simp) (by simp)
  rcases h.2.2 g hg with ⟨f1, ft1, ms, rfl, hms, hsc⟩
  have hbound : ∀ y ∈ sort_by_score_desc ms, y.2.2 ≤ (100 : ℚ) := by
    intro y hy
    rw [hsc y (mem_sort_by_score_desc.mp hy)]
    exact fuzzy_compare_overall_le_100 fz hr hs htk _ _
  have hsorted : sort_by_score_desc ((f1, ft1, (100 : ℚ)) :: ms) =
      (f1, ft1, (100 : ℚ)) :: sort_by_score_desc ms := by
    show insert_desc (f1, ft1, (100 : ℚ)) (sort_by_score_desc ms) =
      (f1, ft1, (100 : ℚ)) :: sort_by_score_desc ms
    exact insert_desc_of_max hbound
  refine ⟨?_, ?_, ?_, ?_⟩
  · simp only [make_group, List.length_map, length_sort_by_score_desc, List.length_cons]
    have := List.length_pos.mpr hms
    omega
  · simp only [make_group]
    rw [List.pairwise_map]
    exact sort_by_score_desc_pairwise ((f1, ft1, (100 : ℚ)) :: ms)
  · refine ⟨to_file_info (f1, ft1, (100 : ℚ)), ?_, rfl, ?_⟩
    · simp [make_group, hsorted]
    · simp [make_group, hsorted, to_file_info]
  · simp [make_group, List.length_map]

/-- C5 witness: on a concrete two-file input the scan emits exactly one
group, and the group properties follow by applying the theorem with the
bound hypotheses discharged for the concrete similarity library. -/
theorem find_duplicates_emitted_group_form_witness :
    (find_duplicates exactMatchLib idDigest 78 demoFiles).length = 1 ∧
    ∀ g ∈ find_duplicates exactMatchLib idDigest 78 demoFiles,
      2 ≤ g.files.length ∧
      g.files.Pairwise (fun a b => b.similarity_score ≤ a.similarity_score) ∧
      (∃ fi, g.files.head? = some fi ∧ fi.similarity_score = 100 ∧ g.best_match = fi.path) ∧
      g.group_id = (idDigest (g.best_match ++ toString g.files.length)).take 8 :=
  ⟨by
    norm_num [find_duplicates, signature_groups, add_to_signature_groups, demoFiles,
      find_duplicates_step, process_group_files, collect_similar, fuzzy_compare,
      title_similarity, artist_similarity, duration_closeness, size_closeness,
      bitrate_closeness, exactMatchLib, exact_match_score, posFeatures, py_round2,
      round_half_even, sort_by_score_desc, insert_desc, make_group],
    find_duplicates_emitted_group_form exactMatchLib idDigest 78 demoFiles
      (fun s t => by simp only [exactMatchLib, exact_match_score]; split <;> norm_num)
      (fun s t => by simp only [exactMatchLib, exact_match_score]; split <;> norm_num)
      (fun s t => by simp only [exactMatchLib, exact_match_score]; split <;> norm_num)⟩

/-- C6 counterexample: a feature set with zero file size and zero bitrate
compared against itself scores 96, not 100 — with both sizes non-positive
the size factor scores 0 and a missing bitrate scores the neutral 50, so the
claimed identity `compare(a, a) = 100` fails on such feature sets.  (On the
non-empty identical strings involved, fuzzywuzzy scores 100, which
`exactMatchLib` reproduces.) -/
theorem fuzzy_compare_self_not_100 :
    (fuzzy_compare exactMatchLib zeroSizeFeatures zeroSizeFeatures).overall ≠ 100 := by
  have h : (fuzzy_compare exactMatchLib zeroSizeFeatures zeroSizeFeatures).overall = 96 := by
    norm_num [fuzzy_compare, title_similarity, artist_similarity, duration_closeness,
      size_closeness, bitrate_closeness, exactMatchLib, exact_match_score, zeroSizeFeatures,
      py_round2, round_half_even]
  rw [h]; norm_num

/-- C6 (amended): `compare(a, a)` yields overall score 100 for every feature
set whose file size and bitrate are positive and whose strings the
similarity measures score at 100 against themselves (true of every non-empty
string under fuzzywuzzy, with the album-artist self-score at most 100). -/
theorem fuzzy_compare_self_100 (fz : Fuzz) (a : FeatureSet)
    (hsize : 0 < a.file_size) (hbit : 0 < a.bitrate)
    (ht1 : fz.ratio a.title a.title = 100) (ht2 : fz.ratio_sub a.title a.title = 100)
    (ht3 : fz.token_sort_ratio a.title a.title = 100)
    (ha1 : fz.ratio a.artist a.artist = 100) (ha2 : fz.ratio_sub a.artist a.artist = 100)
    (haa : fz.ratio a.albumartist a.albumartist ≤ 100)
    (hal : fz.ratio a.album a.album = 100) (hfn : fz.ratio a.filename a.filename = 100) :
    (fuzzy_compare fz a a).overall = 100 := by
  have htitle : title_similarity fz a a = 100 := by
    simp [title_similarity, ht1, ht2, ht3]
  have hartist : artist_similarity fz a a = 100 := by
    unfold artist_similarity
    split
    · rw [ha1, ha2]; simp [haa]
    · rw [ha1, ha2]; simp
  have hdur : duration_closeness |a.duration - a.duration| = 100 := by
    norm_num [duration_closeness]
  have hsz : size_closeness a.file_size a.file_size = 100 := by
    norm_num [size_closeness, hsize]
  have hbr : bitrate_closeness a.bitrate a.bitrate = 100 := by
    norm_num [bitrate_closeness, hbit]
  simp only [fuzzy_compare]
  rw [htitle, hartist, hal, hfn, hdur, hsz, hbr]
  norm_num [py_round2, round_half_even]

/-- C6 witness: a concrete feature set with positive size and bitrate whose
self-comparison reaches 100, via the amended theorem. -/
theorem fuzzy_compare_self_100_witness :
    0 < posFeatures.file_size ∧ 0 < posFeatures.bitrate ∧
    (fuzzy_compare exactMatchLib posFeatures posFeatures).overall = 100 :=
  ⟨by norm_num [posFeatures], by norm_num [posFeatures],
    fuzzy_compare_self_100 exactMatchLib posFeatures (by norm_num [posFeatures])
      (by norm_num [posFeatures]) (by simp [exactMatchLib, exact_match_score])
      (by simp [exactMatchLib, exact_match_score]) (by simp [exactMatchLib, exact_match_score])
      (by simp [exactMatchLib, exact_match_score]) (by simp [exactMatchLib, exact_match_score])
      (by simp [exactMatchLib, exact_match_score]) (by simp [exactMatchLib, exact_match_score])
      (by simp [exactMatchLib, exact_match_score])⟩

/-- C7 counterexample: with an existing file whose size and mtime match the
cache entry, a stored fingerprint, content-hash checking enabled, and a
failed fingerprint recomputation (the `none` sentinel for the empty string
`_compute_file_hash` returns on error), `is_file_modified` returns false —
the file is reported unchanged, contradicting the claim that a
hash-computation failure is treated as stale and propagated. -/
theorem is_file_modified_hash_failure_unchanged :
    is_file_modified true (some (5, 1000)) (some ⟨5, 1000, some "aa"⟩) true false none = false := by
  rfl

/-- C7 (amended): when the fingerprint comparison step is reached (sizes and
mtimes match, a fingerprint is stored) and the current fingerprint cannot be
computed, `is_file_modified` skips the comparison and returns false,
reporting the file as unchanged; the failure is logged inside
`_compute_file_hash` and not propagated. -/
theorem is_file_modified_hash_failure_skips (m : ℚ) (s : ℤ) (h : String) (uch dc : Bool) :
    is_file_modified true (some (m, s)) (some ⟨m, s, some h⟩) uch dc none = false := by
  cases h3 : uch || dc <;> simp [is_file_modified, h3]

/-- C8: contrary to the specification, a storage failure on a single upsert
aborts the whole batch scan.  With two files whose cache entries both need
refreshing and an upsert that fails on the first file, the embedded scan
loop (which, like the source, has no handler around `update_file_cache`)
returns the storage error and the second file is never processed; with a
succeeding upsert the same scan returns both groups. -/
theorem scan_aborts_on_single_upsert_failure :
    scan_files_and_group_with_cache (μ := Unit) (ε := String) (fun p => p) (fun _ => true)
      (fun _ => ()) (fun p _ => if p = "a" then Except.error "storage failure" else Except.ok ())
      (fun _ => none) ["a", "b"] = Except.error "storage failure" ∧
    scan_files_and_group_with_cache (μ := Unit) (ε := String) (fun p => p) (fun _ => true)
      (fun _ => ()) (fun _ _ => Except.ok ()) (fun _ => none) ["a", "b"] =
      Except.ok [("a", ["a"], some ()), ("b", ["b"], some ())] := by
  constructor
  · rfl
  · simp [scan_files_and_group_with_cache, scan_loop, add_file_to_groups, set_group_metadata,
      sort_groups_by_key, insert_by_key]
    decide

/-- C9: a scan-start request while the scanning flag is set is rejected with
the already-in-progress error, the stored progress state is returned
unchanged and no background thread is started; a request while no scan is
active (and the directory exists) starts a scan with freshly reset
progress. -/
theorem start_duplicate_scan_exclusive (pr tot : ℕ) (cf : String)
    (res : Option (List DuplicateGroup)) (d : Bool) :
    start_duplicate_scan ⟨true, pr, tot, cf, res⟩ d =
      (ScanStartResult.already_in_progress, ⟨true, pr, tot, cf, res⟩, false) ∧
    start_duplicate_scan ⟨false, pr, tot, cf, res⟩ true =
      (ScanStartResult.started, ⟨true, 0, 0, "", none⟩, true) := by
  constructor <;> rfl

/-- C10: the duration-closeness curve is not monotone in the absolute
difference: a 10-second difference scores 55 on the middle branch while an
11-second difference scores 78 on the outer branch, and the comparator
computes its duration factor with exactly this curve. -/
theorem duration_closeness_not_monotone :
    duration_closeness 10 = 55 ∧ duration_closeness 11 = 78 ∧
    ((10 : ℚ) < 11 ∧ duration_closeness 10 < duration_closeness 11) ∧
    (∀ (fz : Fuzz) (f g : FeatureSet),
      (fuzzy_compare fz f g).duration = duration_closeness |f.duration - g.duration|) := by
  have h10 : duration_closeness 10 = 55 := by norm_num [duration_closeness]
  have h11 : duration_closeness 11 = 78 := by norm_num [duration_closeness]
  exact ⟨h10, h11, ⟨by norm_num, by rw [h10, h11]; norm_num⟩, fun fz f g => rfl⟩
